import Mathlib

/-!
Shallow embedding of the gym-duet environment (`src/duet/duet_env.py`).

The environment class `DuetGame` is embedded as a pure state-passing model:
`DuetState` holds the fields that `__init__`/`man_init` store on `self`, and
`step`/`reset`/`man_init` are translated statement by statement from the
source.  The rendering backend (pygame) is out of scope per the spec; the
three backend collaborators that the repository imports but whose sources are
not part of `src/` (`Ball`, `Obstacle`/`ObstacleManager`, `Controller`) are
modelled from the spec, with their numeric/trigonometric internals and the
pseudo-random gap stream abstracted into an explicit `Backend` record so that
the model stays executable.
-/

deriving instance DecidableEq for Except

namespace Duet

/-- Board height in pixels (`duet_env.py`, `BOARD_HEIGHT = 960`). -/
def BOARD_HEIGHT : ℚ := 960

/-- Board width in pixels (`duet_env.py`, `BOARD_WIDTH = 540`). -/
def BOARD_WIDTH : ℚ := 540

/-- Distance from either ball to the center (`CIRCLE_RADIUS = 100`). -/
def CIRCLE_RADIUS : ℚ := 100

/-- Distance from ball to bottom of screen (`DIST_TO_BOTTOM = CIRCLE_RADIUS + 15`). -/
def DIST_TO_BOTTOM : ℚ := CIRCLE_RADIUS + 15

/-- Tick interval between obstacle spawns (`NEW_OBS_INTERVAL = 140`). -/
def NEW_OBS_INTERVAL : ℕ := 140

/-- Modelled from the spec: a single rectangular gate obstacle.  The class
`Obstacle` lives in the missing backend (`duet_backend/obstacle.py`); the spec
says it is "a rectangle with a fixed width/height, a horizontal position fixed
at creation, and a vertical position that ... \x28moves toward the ball
ring\x29 by a fixed step per tick", reporting its bounding box and span. -/
structure Obstacle where
  left : ℚ
  right : ℚ
  top : ℚ
  height : ℚ
deriving DecidableEq

/-- Modelled from the spec: `get_bottom()` of the missing `Obstacle` class,
pure derived geometry from position plus fixed size. -/
def Obstacle.bottom (o : Obstacle) : ℚ := o.top + o.height

/-- Modelled from the spec: `Obstacle.move()` "advances vertical position
downward by a fixed per-tick delta; no bounds check".  The fixed delta is the
`speed` field of the `Backend` record. -/
def Obstacle.move (speed : ℚ) (o : Obstacle) : Obstacle :=
  { o with top := o.top + speed }

/-- Modelled from the spec: a player ball of the missing `Ball` class.  The
spec stores the angular phase θ and a derived Cartesian position.  Every phase
reachable by the engine has the exact form `aPi·π + bStep·SPIN_STEP`, so the
phase is carried in that exact symbolic form (`aPi`, `bStep`) together with
the cached Cartesian position (`x`, `y`) that `position()` returns. -/
structure Ball where
  aPi : ℤ
  bStep : ℤ
  x : ℚ
  y : ℚ
deriving DecidableEq

/-- Observation returned by `reset`/`step`: either the coordinate vector or
the rasterized pixel frame (`duet_env.py` `_get_coord_state`/`_get_pixel_state`). -/
inductive Obs where
  | coordObs (v : List ℚ)
  | pixelObs (raster : List ℕ)
deriving DecidableEq

/-- Per-tick external inputs of the human-keyboard mode: the state of the
left/right arrow keys that `_move_balls` polls via `pygame.key.get_pressed()`. -/
structure ExtIn where
  keyLeft : Bool
  keyRight : Bool
deriving DecidableEq

/-- The environment state: the fields `__init__`/`man_init` store on `self`
(`duet_env.py` lines 47-99).  `sets` is the obstacle manager's FIFO of live
obstacle sets (oldest first) and `cursor` is the number of pseudo-random gap
draws consumed so far from the process-global random stream (the manager's
only source of randomness per the spec). -/
structure DuetState where
  mode : String
  stateRep : String
  capture : Bool
  nRepeatAction : ℕ
  randomObstacles : Bool
  drawRects : Bool
  visualize : Bool
  score : ℕ
  i : ℕ
  blue : Ball
  red : Ball
  sets : List (List Obstacle)
  cursor : ℕ
deriving DecidableEq

/-- Modelled from the spec: the numeric and external collaborators whose code
is not under `src/` — the obstacle fall step and spawn geometry of the missing
`Obstacle`/`ObstacleManager` backend, the pseudo-random gap stream (`gapF`,
indexed by the number of draws consumed from the process-global PRNG) and the
fixed canonical layout (`fixedGap`), the float evaluation of the ball's
angle-to-position conversion (`posF`, applied to the symbolic phase), the
rule-based `Controller.get_controll` collaborator (`contrF`), and the raster
producer behind `_get_pixel_state` (`pixelF`). -/
structure Backend where
  speed : ℚ
  spawnTop : ℚ
  obsHeight : ℚ
  gapF : ℕ → List (ℚ × ℚ)
  fixedGap : List (ℚ × ℚ)
  posF : ℤ → ℤ → ℚ × ℚ
  contrF : List (List Obstacle) → ℚ × ℚ → ℚ × ℚ → ℤ
  pixelF : DuetState → List ℕ

/-- Modelled from the spec: `Ball.spin_left()` decrements θ by the fixed
angular step and recomputes the cached position. -/
def Ball.spinLeft (p : Backend) (b : Ball) : Ball :=
  { aPi := b.aPi, bStep := b.bStep - 1,
    x := (p.posF b.aPi (b.bStep - 1)).1, y := (p.posF b.aPi (b.bStep - 1)).2 }

/-- Modelled from the spec: `Ball.spin_right()` increments θ by the fixed
angular step and recomputes the cached position. -/
def Ball.spinRight (p : Backend) (b : Ball) : Ball :=
  { aPi := b.aPi, bStep := b.bStep + 1,
    x := (p.posF b.aPi (b.bStep + 1)).1, y := (p.posF b.aPi (b.bStep + 1)).2 }

/-- Modelled from the spec: `Ball.position()` returns the cached Cartesian
position, a pure function with no side effects. -/
def Ball.position (b : Ball) : ℚ × ℚ := (b.x, b.y)

/-- Modelled from the spec: `Ball.collided_with(obstacle)` is "true iff the
ball's current position falls within the obstacle's rectangular bounds
\x28inclusive of edges is a policy choice\x29"; edges are taken inclusive. -/
def Ball.collidedWith (b : Ball) (o : Obstacle) : Bool :=
  decide (o.left ≤ b.x) && decide (b.x ≤ o.right) &&
    decide (o.top ≤ b.y) && decide (b.y ≤ o.bottom)

/-- Modelled from the spec: `ObstacleManager.new_obstacle_set()` appends one
new obstacle set; gap placement is drawn from the pseudo-random stream when
`random_obstacles` is configured and from the fixed canonical layout
otherwise.  Returns the new set and the updated draw cursor. -/
def newObstacleSet (p : Backend) (rand : Bool) (cursor : ℕ) :
    List Obstacle × ℕ :=
  let spans := if rand then p.gapF cursor else p.fixedGap
  (spans.map fun sp =>
    { left := sp.1, right := sp.2, top := p.spawnTop, height := p.obsHeight },
   if rand then cursor + 1 else cursor)

/-- Modelled from the spec: `ObstacleManager.oldest_out_of_frame()` is "true
iff every obstacle's top has passed the bottom boundary" of the head set.  On
an empty manager the model returns `false` (the spec leaves this undefined;
the engine never queries an empty manager, see the manager invariant). -/
def oldestOutOfFrame (sets : List (List Obstacle)) : Bool :=
  match sets with
  | [] => false
  | st :: _ => st.all fun o => decide (BOARD_HEIGHT < o.top)

/-- Collision pass of `step` (`duet_env.py` lines 162-170): every obstacle of
the oldest live set is tested against both balls; the flag is true if any
obstacle hits either ball.  On an empty manager the model returns `false`
(the source would raise; the manager invariant shows this point is never
reached with an empty manager). -/
def headHit (blue red : Ball) (sets : List (List Obstacle)) : Bool :=
  match sets with
  | [] => false
  | st :: _ => st.any fun o => blue.collidedWith o || red.collidedWith o

/-- Blue ball creation in `_init_balls` (`duet_env.py` lines 312-317):
position `(BOARD_WIDTH//2 - CIRCLE_RADIUS, BOARD_HEIGHT - DIST_TO_BOTTOM)`,
phase `np.pi`. -/
def initBlue : Ball :=
  { aPi := 1, bStep := 0,
    x := BOARD_WIDTH / 2 - CIRCLE_RADIUS, y := BOARD_HEIGHT - DIST_TO_BOTTOM }

/-- Red ball creation in `_init_balls` (`duet_env.py` lines 319-324):
position `(BOARD_WIDTH//2 + CIRCLE_RADIUS, BOARD_HEIGHT - DIST_TO_BOTTOM)`,
phase `0`. -/
def initRed : Ball :=
  { aPi := 0, bStep := 0,
    x := BOARD_WIDTH / 2 + CIRCLE_RADIUS, y := BOARD_HEIGHT - DIST_TO_BOTTOM }

/-- Control extraction of `_move_balls` (`duet_env.py` lines 326-362): the
spin command applied identically to both balls, encoded as `-1` (spin left),
`1` (spin right) or anything else (idle).  Mode `man` reads the keyboard,
mode `contr` asks the controller collaborator, mode `ai` decodes the stored
action (`1` → left, `2` → right); any other mode raises
`ValueError("Invalid game mode ...")`. -/
def controlOf (p : Backend) (ext : ExtIn) (action : ℤ) (s : DuetState) :
    Except String ℤ :=
  if s.mode = "man" then
    .ok (if ext.keyLeft then -1 else if ext.keyRight then 1 else 0)
  else if s.mode = "contr" then
    .ok (p.contrF s.sets s.red.position s.blue.position)
  else if s.mode = "ai" then
    .ok (if action = 1 then -1 else if action = 2 then 1 else 0)
  else
    .error ("Invalid game mode " ++ s.mode)

/-- Spin application of `_move_balls`: on `-1` both balls spin left, on `1`
both spin right, otherwise both are left unchanged (`duet_env.py`: every
branch calls the same spin on `self.blue_ball` and `self.red_ball`). -/
def applyControl (p : Backend) (d : ℤ) (s : DuetState) : DuetState :=
  if d = -1 then { s with blue := s.blue.spinLeft p, red := s.red.spinLeft p }
  else if d = 1 then
    { s with blue := s.blue.spinRight p, red := s.red.spinRight p }
  else s

/-- Result of one loop body iteration of `step`: the successor state plus the
two per-tick events, `retired` (the oldest set went out of frame and was
removed, scoring a point) and `collided` (the collision pass hit). -/
structure TickOut where
  state : DuetState
  retired : Bool
  collided : Bool
deriving DecidableEq

/-- Obstacle-manager part of one loop body iteration of `step` (`duet_env.py`
lines 142-153): move every obstacle of every live set downward, retire the
oldest set if it is fully out of frame, and spawn one new set when the
wrap-around counter has hit the spawn interval.  Returns the new live sets,
the new draw cursor, and the retirement flag. -/
def mgrTick (p : Backend) (rand : Bool) (i cursor : ℕ)
    (sets : List (List Obstacle)) : List (List Obstacle) × ℕ × Bool :=
  let sets1 := sets.map (List.map (Obstacle.move p.speed))
  let retired := oldestOutOfFrame sets1
  let sets2 := if retired then sets1.tail else sets1
  if i % NEW_OBS_INTERVAL = 0 then
    let ns := newObstacleSet p rand cursor
    (sets2 ++ [ns.1], ns.2, retired)
  else (sets2, cursor, retired)

/-- One iteration of the `for i in range(self.n_repeat_action)` loop body of
`step` (`duet_env.py` lines 137-173), given the extracted spin command `d`:
move the balls, move all obstacles, retire the oldest set if out of frame
(incrementing the score), spawn a new set when the counter hits the spawn
interval, run the collision pass against the oldest live set, and advance the
wrap-around counter `i`.  Drawing calls are rendering-only and not modelled. -/
def tickCore (p : Backend) (d : ℤ) (s0 : DuetState) : TickOut :=
  let s1 := applyControl p d s0
  let m := mgrTick p s1.randomObstacles s1.i s1.cursor s1.sets
  let collided := headHit s1.blue s1.red m.1
  { state :=
      { s1 with score := if m.2.2 then s1.score + 1 else s1.score,
                sets := m.1, cursor := m.2.1,
                i := (s1.i + 1) % NEW_OBS_INTERVAL },
    retired := m.2.2, collided := collided }

/-- Reward write of the loop body: retirement sets the carried reward to `1`
(`duet_env.py` line 149), a collision afterwards forces it to `0` (lines
167/170); with neither event the carried value is left unchanged. -/
def updReward (r : ℕ) (retired collided : Bool) : ℕ :=
  if collided then 0 else if retired then 1 else r

/-- One sub-step of `step` acting on the carried `(state, reward, game_over)`
triple: extract the spin command (which can raise on an invalid mode), run
the tick, and update the carried reward and termination flag.  `game_over` is
only ever set, never cleared, inside the loop. -/
def subStep (p : Backend) (ext : ExtIn) (a : ℤ)
    (acc : DuetState × ℕ × Bool) : Except String (DuetState × ℕ × Bool) :=
  match controlOf p ext a acc.1 with
  | .error e => .error e
  | .ok d =>
    let t := tickCore p d acc.1
    .ok (t.state, updReward acc.2.1 t.retired t.collided,
         acc.2.2 || t.collided)

/-- The `for i in range(self.n_repeat_action)` loop of `step`: `n` remaining
iterations, `k` the index of the current iteration (used to index the
per-sub-step keyboard input stream). -/
def stepLoop (p : Backend) (exts : ℕ → ExtIn) (a : ℤ) :
    ℕ → ℕ → DuetState × ℕ × Bool → Except String (DuetState × ℕ × Bool)
  | _, 0, acc => .ok acc
  | k, Nat.succ n, acc =>
    match subStep p (exts k) a acc with
    | .error e => .error e
    | .ok acc1 => stepLoop p exts a (k + 1) n acc1

/-- `_get_coord_state` (`duet_env.py` lines 243-305): blue ball coordinates,
red ball coordinates, then `[top, bottom, left, right]` of the first obstacle
of the oldest live set, then the same for its second obstacle or
`[0, 0, 0, 0]` when the set has only one obstacle.  The source indexes
`oldest_obstacle_set()[0]` directly, so an empty manager or an empty head set
is a failure, modelled by `none`. -/
def obs2Coords (rest : List Obstacle) : List ℚ :=
  match rest with
  | [] => [0, 0, 0, 0]
  | o2 :: _ => [o2.top, o2.bottom, o2.left, o2.right]

def coordState (s : DuetState) : Option (List ℚ) :=
  match s.sets with
  | [] => none
  | set :: _ =>
    match set with
    | [] => none
    | o1 :: rest =>
      some ([s.blue.x, s.blue.y, s.red.x, s.red.y] ++
            [o1.top, o1.bottom, o1.left, o1.right] ++ obs2Coords rest)

/-- Observation production at the end of `reset`/`step`: only when `capture`
is configured, a coordinate vector in `coord` mode, the raster in `pixel`
mode, and `none` for any other representation tag (the source's `if/elif`
falls through returning `None`). -/
def observe (p : Backend) (s : DuetState) : Except String (Option Obs) :=
  if s.capture then
    if s.stateRep = "coord" then
      match coordState s with
      | some v => .ok (some (Obs.coordObs v))
      | none => .error "list index out of range"
    else if s.stateRep = "pixel" then .ok (some (Obs.pixelObs (p.pixelF s)))
    else .ok none
  else .ok none

/-- `step(action)` (`duet_env.py` lines 126-185): run the loop body
`n_repeat_action` times on the carried `(state, reward=0, game_over=False)`
triple, then produce the observation of the final state; returns
`(state, reward, game_over)` (the info dict is empty and omitted). -/
def step (p : Backend) (exts : ℕ → ExtIn) (a : ℤ) (s : DuetState) :
    Except String (DuetState × Option Obs × ℕ × Bool) :=
  match stepLoop p exts a 0 s.nRepeatAction (s, 0, false) with
  | .error e => .error e
  | .ok out =>
    match observe p out.1 with
    | .error e => .error e
    | .ok ob => .ok (out.1, ob, out.2.1, out.2.2)

/-- `reset()` (`duet_env.py` lines 101-124): score and counter back to their
initial values, balls re-initialized, a fresh obstacle manager with exactly
one newly spawned set; returns the initial observation (or nothing when
capture is disabled).  The global random stream is not re-seeded, so the draw
cursor continues from its current value. -/
def reset (p : Backend) (s : DuetState) :
    DuetState × Except String (Option Obs) :=
  let ns := newObstacleSet p s.randomObstacles s.cursor
  let s1 := { s with score := 0, i := 1, blue := initBlue, red := initRed,
                     sets := [ns.1], cursor := ns.2 }
  (s1, observe p s1)

/-- Configuration surface of `man_init` (`duet_env.py` line 71): its
parameters with their source defaults. -/
structure ManInitArgs where
  stateRep : String
  mode : String
  capture : Bool
  nRepeatAction : ℕ
  randomObstacles : Bool
  drawRects : Bool
  visualize : Bool
deriving DecidableEq

/-- The parameter names of `man_init` (`duet_env.py` line 71), the entire
configuration surface the environment exposes to callers. -/
def manInitParamNames : List String :=
  ["state_rep", "mode", "capture", "n_repeat_action", "random_obstacles",
   "draw_rects", "visualize"]

/-- State after `__init__` followed by `man_init` (`duet_env.py` lines 47-99):
configuration stored, score `0` and counter `1` from `__init__`, balls
initialized, a fresh obstacle manager holding one newly spawned set, and the
pseudo-random draw cursor at the start of the global stream. -/
def manInit (p : Backend) (args : ManInitArgs) : DuetState :=
  let ns := newObstacleSet p args.randomObstacles 0
  { mode := args.mode, stateRep := args.stateRep, capture := args.capture,
    nRepeatAction := args.nRepeatAction,
    randomObstacles := args.randomObstacles, drawRects := args.drawRects,
    visualize := args.visualize, score := 0, i := 1,
    blue := initBlue, red := initRed, sets := [ns.1], cursor := ns.2 }

/-- Pure tick-level run: the sequence of loop-body iterations that a sequence
of `step` calls performs on the state component, one `(keyboard, action)`
input per tick. -/
def runTicks (p : Backend) :
    List (ExtIn × ℤ) → DuetState → Except String DuetState
  | [], s => .ok s
  | (e, a) :: rest, s =>
    match controlOf p e a s with
    | .error err => .error err
    | .ok d => runTicks p rest (tickCore p d s).state

/-- A run of external `step` calls, returning the final state and the
per-call `(observation, reward, done)` outputs. -/
def runSteps (p : Backend) :
    List ((ℕ → ExtIn) × ℤ) → DuetState →
      Except String (DuetState × List (Option Obs × ℕ × Bool))
  | [], s => .ok (s, [])
  | (e, a) :: rest, s =>
    match step p e a s with
    | .error err => .error err
    | .ok out =>
      match runSteps p rest out.1 with
      | .error err => .error err
      | .ok fin => .ok (fin.1, (out.2.1, out.2.2.1, out.2.2.2) :: fin.2)

/-- The tick inputs seen by `stepLoop` starting at sub-step index `k` for `n`
iterations. -/
def ticksOf (exts : ℕ → ExtIn) (a : ℤ) (k n : ℕ) : List (ExtIn × ℤ) :=
  (List.range n).map fun j => (exts (k + j), a)

/-- Concrete backend instance used for the concrete evaluations: fall step 4
pixels per tick, sets spawned at the top edge, obstacle height 100, a
constant gap stream, and trivial position/controller/raster collaborators. -/
def pTest : Backend :=
  { speed := 4, spawnTop := 0, obsHeight := 100,
    gapF := fun _ => [(200, 340)], fixedGap := [(200, 340)],
    posF := fun _ _ => (0, 0), contrF := fun _ _ _ => 0,
    pixelF := fun _ => [] }

/-- Concrete keyboard input: no key pressed. -/
def ex0 : ExtIn := { keyLeft := false, keyRight := false }

/-- Concrete configuration: coordinate observations, external-action mode,
no capture, no frame-skip, random obstacles. -/
def argsTest : ManInitArgs :=
  { stateRep := "coord", mode := "ai", capture := false, nRepeatAction := 1,
    randomObstacles := true, drawRects := false, visualize := false }

/-- Concrete state with frame-skip 2 whose oldest obstacle covers the blue
ball: the first sub-step of a `step` call detects a collision. -/
def s1ce : DuetState :=
  { mode := "ai", stateRep := "coord", capture := false, nRepeatAction := 2,
    randomObstacles := true, drawRects := false, visualize := false,
    score := 0, i := 1, blue := initBlue, red := initRed,
    sets := [[{ left := 150, right := 200, top := 800, height := 100 }]],
    cursor := 1 }

/-- State of `s1ce` after its first sub-step (collision detected). -/
def s1mid : DuetState :=
  { s1ce with
    i := 2,
    sets := [[{ left := 150, right := 200, top := 804, height := 100 }]] }

/-- State returned by the full two-sub-step `step` call on `s1ce`: the second
sub-step ran after the terminating one, moving the obstacle again. -/
def s1fin : DuetState :=
  { s1ce with
    i := 3,
    sets := [[{ left := 150, right := 200, top := 808, height := 100 }]] }

/-- Concrete state with frame-skip 2 whose oldest obstacle set goes out of
frame on the first sub-step (a retirement), with a second far-away set behind
it and no collision on either sub-step. -/
def s2ce : DuetState :=
  { mode := "ai", stateRep := "coord", capture := false, nRepeatAction := 2,
    randomObstacles := true, drawRects := false, visualize := false,
    score := 0, i := 1, blue := initBlue, red := initRed,
    sets := [[{ left := 400, right := 450, top := 958, height := 100 }],
             [{ left := 400, right := 450, top := 100, height := 100 }]],
    cursor := 2 }

/-- State returned by the full two-sub-step `step` call on `s2ce`. -/
def s2fin : DuetState :=
  { s2ce with
    i := 3, score := 1,
    sets := [[{ left := 400, right := 450, top := 108, height := 100 }]] }

/-- The two balls' phases differ by exactly π radians, where the phase a
ball's symbolic representation denotes is `aPi·π + bStep·0.0224` radians
(`SPIN_STEP = 0.0224`, `duet_env.py` line 21). -/
def phasesPiApart (blue red : Ball) : Prop :=
  ((blue.aPi : ℝ) * Real.pi + (blue.bStep : ℝ) * (224 / 10000)) -
      ((red.aPi : ℝ) * Real.pi + (red.bStep : ℝ) * (224 / 10000)) = Real.pi

/-- The phase-coupling invariant of the two balls: blue at `π` plus a whole
number of spin steps, red at `0` plus the same number of spin steps. -/
def PhaseInv (s : DuetState) : Prop :=
  s.blue.aPi = 1 ∧ s.red.aPi = 0 ∧ s.blue.bStep = s.red.bStep

/-- The ticks from sub-step index `k` onwards are collision-free: no tick of
the run detects a collision (runs that abort on an invalid mode are treated
as vacuously collision-free; `stepLoop` aborts there anyway). -/
def noCollRun (p : Backend) (exts : ℕ → ExtIn) (a : ℤ) :
    ℕ → ℕ → DuetState → Bool
  | _, 0, _ => true
  | k, Nat.succ n, s =>
    match controlOf p (exts k) a s with
    | .error _ => true
    | .ok d =>
      !(tickCore p d s).collided &&
        noCollRun p exts a (k + 1) n (tickCore p d s).state

/-- The age (in ticks since spawn) that the wrap-around counter value `i`
implies for the youngest live obstacle set. -/
def yOf (i : ℕ) : ℕ := (i + 139) % 140

/-- Top coordinate of an obstacle set that was spawned `a` ticks ago. -/
def ageTop (p : Backend) (a : ℕ) : ℚ := p.spawnTop + (a : ℚ) * p.speed

/-- The obstacle set `st` is a nonempty set whose obstacles all sit at the
vertical position of age `a`. -/
def SetAt (p : Backend) (a : ℕ) (st : List Obstacle) : Prop :=
  st ≠ [] ∧ ∀ o ∈ st, o.top = ageTop p a

/-- The obstacle-manager invariant: the counter is within its wrap range and
the live sets are, oldest first, exactly the sets of ages
`yOf i + 140·(k-1), …, yOf i + 140, yOf i` for some `k ≥ 1`, each nonempty,
with the oldest set not yet past the bottom boundary. -/
def MgrInv (p : Backend) (s : DuetState) : Prop :=
  s.i < 140 ∧
  ∃ k : ℕ, 1 ≤ k ∧
    List.Forall₂ (fun st j => SetAt p (yOf s.i + 140 * j) st) s.sets
      ((List.range k).reverse) ∧
    ageTop p (yOf s.i + 140 * (k - 1)) ≤ BOARD_HEIGHT

/-- Configuration with an invalid control mode. -/
def argsBogus : ManInitArgs :=
  { stateRep := "coord", mode := "bogus", capture := false,
    nRepeatAction := 1, randomObstacles := true, drawRects := false,
    visualize := false }

/-- State of `s2ce` after its first sub-step (the retirement sub-step). -/
def s2mid : DuetState :=
  { s2ce with
    i := 2, score := 1,
    sets := [[{ left := 400, right := 450, top := 104, height := 100 }]] }

/-- State after one idle tick from `manInit pTest argsTest` (used as the
concrete phase-lock run with a spin-left action instead, see `s5w`). -/
def s6w : DuetState :=
  { mode := "ai", stateRep := "coord", capture := false, nRepeatAction := 1,
    randomObstacles := true, drawRects := false, visualize := false,
    score := 0, i := 2, blue := initBlue, red := initRed,
    sets := [[{ left := 200, right := 340, top := 4, height := 100 }]],
    cursor := 1 }

/-- State after one spin-left tick from `manInit pTest argsTest`. -/
def s5w : DuetState :=
  { s6w with
    blue := { aPi := 1, bStep := -1, x := 0, y := 0 },
    red := { aPi := 0, bStep := -1, x := 0, y := 0 } }

/-- A second gap stream that agrees with the constant stream of `pTest` on
the first three draws and differs afterwards. -/
def g2Test : ℕ → List (ℚ × ℚ) :=
  fun n => if n < 3 then [(200, 340)] else [(9, 9)]

set_option maxRecDepth 100000

theorem applyControl_proj (p : Backend) (d : ℤ) (s : DuetState) :
    (applyControl p d s).mode = s.mode ∧
    (applyControl p d s).stateRep = s.stateRep ∧
    (applyControl p d s).capture = s.capture ∧
    (applyControl p d s).nRepeatAction = s.nRepeatAction ∧
    (applyControl p d s).randomObstacles = s.randomObstacles ∧
    (applyControl p d s).drawRects = s.drawRects ∧
    (applyControl p d s).visualize = s.visualize ∧
    (applyControl p d s).score = s.score ∧
    (applyControl p d s).i = s.i ∧
    (applyControl p d s).sets = s.sets ∧
    (applyControl p d s).cursor = s.cursor := by
  unfold applyControl
  split_ifs <;> simp

theorem tickCore_state_proj (p : Backend) (d : ℤ) (s : DuetState) :
    (tickCore p d s).state.mode = s.mode ∧
    (tickCore p d s).state.stateRep = s.stateRep ∧
    (tickCore p d s).state.capture = s.capture ∧
    (tickCore p d s).state.nRepeatAction = s.nRepeatAction ∧
    (tickCore p d s).state.randomObstacles = s.randomObstacles ∧
    (tickCore p d s).state.drawRects = s.drawRects ∧
    (tickCore p d s).state.visualize = s.visualize := by
  obtain ⟨h1, h2, h3, h4, h5, h6, h7, _⟩ := applyControl_proj p d s
  simp only [tickCore]
  exact ⟨h1, h2, h3, h4, h5, h6, h7⟩

theorem tickCore_state_mgr (p : Backend) (d : ℤ) (s : DuetState) :
    (tickCore p d s).state.sets =
      (mgrTick p s.randomObstacles s.i s.cursor s.sets).1 ∧
    (tickCore p d s).state.cursor =
      (mgrTick p s.randomObstacles s.i s.cursor s.sets).2.1 ∧
    (tickCore p d s).state.i = (s.i + 1) % NEW_OBS_INTERVAL ∧
    (tickCore p d s).retired =
      (mgrTick p s.randomObstacles s.i s.cursor s.sets).2.2 := by
  obtain ⟨_, _, _, _, h5, _, _, _, h9, h10, h11⟩ := applyControl_proj p d s
  simp only [tickCore, h5, h9, h10, h11]
  refine ⟨?_, ?_, ?_, ?_⟩ <;> trivial

theorem tickCore_state_balls (p : Backend) (d : ℤ) (s : DuetState) :
    (tickCore p d s).state.blue = (applyControl p d s).blue ∧
    (tickCore p d s).state.red = (applyControl p d s).red := by
  simp only [tickCore]
  refine ⟨?_, ?_⟩ <;> trivial

theorem tickCore_state_score (p : Backend) (d : ℤ) (s : DuetState) :
    (tickCore p d s).state.score =
      if (tickCore p d s).retired then s.score + 1 else s.score := by
  obtain ⟨_, _, _, _, _, _, _, h8, _, _, _⟩ := applyControl_proj p d s
  simp only [tickCore, h8]

theorem ticksOf_zero (exts : ℕ → ExtIn) (a : ℤ) (k : ℕ) :
    ticksOf exts a k 0 = [] := by
  simp [ticksOf]

theorem ticksOf_succ (exts : ℕ → ExtIn) (a : ℤ) (k n : ℕ) :
    ticksOf exts a k (n + 1) = (exts k, a) :: ticksOf exts a (k + 1) n := by
  unfold ticksOf
  rw [List.range_succ_eq_map]
  simp only [List.map_cons, List.map_map, Nat.add_zero]
  refine congrArg _ ?_
  refine List.map_congr_left ?_
  intro j _
  simp only [Function.comp_apply]
  refine congrArg (fun m => (exts m, a)) ?_
  omega

theorem stepLoop_done_latched (p : Backend) (exts : ℕ → ExtIn) (a : ℤ) :
    ∀ (n k : ℕ) (s : DuetState) (r : ℕ) (s' : DuetState) (r' : ℕ) (g' : Bool),
      stepLoop p exts a k n (s, r, true) = .ok (s', r', g') → g' = true := by
  intro n
  induction n with
  | zero =>
    intro k s r s' r' g' h
    simp only [stepLoop, Except.ok.injEq, Prod.mk.injEq] at h
    exact h.2.2.symm
  | succ m ih =>
    intro k s r s' r' g' h
    simp only [stepLoop] at h
    cases hc : subStep p (exts k) a (s, r, true) with
    | error e => rw [hc] at h; cases h
    | ok acc1 =>
      rw [hc] at h
      have hacc : acc1.2.2 = true := by
        simp only [subStep] at hc
        cases hcc : controlOf p (exts k) a s with
        | error e => rw [hcc] at hc; cases hc
        | ok d =>
          rw [hcc] at hc
          simp only [Except.ok.injEq] at hc
          rw [← hc]
          simp
      obtain ⟨s1, r1, g1⟩ := acc1
      simp only at hacc
      rw [hacc] at h
      exact ih (k + 1) s1 r1 s' r' g' h

theorem stepLoop_state_eq_runTicks (p : Backend) (exts : ℕ → ExtIn) (a : ℤ) :
    ∀ (n k : ℕ) (acc : DuetState × ℕ × Bool) (s' : DuetState) (r' : ℕ)
      (g' : Bool), stepLoop p exts a k n acc = .ok (s', r', g') →
      runTicks p (ticksOf exts a k n) acc.1 = .ok s' := by
  intro n
  induction n with
  | zero =>
    intro k acc s' r' g' h
    simp only [stepLoop, Except.ok.injEq] at h
    rw [ticksOf_zero]
    simp only [runTicks]
    rw [h]
  | succ m ih =>
    intro k acc s' r' g' h
    simp only [stepLoop] at h
    cases hc : subStep p (exts k) a acc with
    | error e => rw [hc] at h; cases h
    | ok acc1 =>
      rw [hc] at h
      rw [ticksOf_succ]
      obtain ⟨s0, r0, g0⟩ := acc
      simp only [subStep] at hc
      cases hcc : controlOf p (exts k) a s0 with
      | error e => rw [hcc] at hc; cases hc
      | ok d =>
        rw [hcc] at hc
        simp only [Except.ok.injEq] at hc
        simp only [runTicks, hcc]
        have h1 : acc1.1 = (tickCore p d s0).state := by rw [← hc]
        have := ih (k + 1) acc1 s' r' g' h
        rw [h1] at this
        exact this

/-- C1 (counterexample): in `s1ce` (frame-skip 2) the first sub-step already
detects a collision and returns `done = true`, yet the full `step` call
returns a state in which the obstacle has moved once more and the tick
counter advanced once more than at the terminating sub-step — the remaining
sub-step was executed, contradicting the claim that `step` returns
immediately without executing the remaining sub-steps. -/
theorem C1_counterexample :
    subStep pTest ex0 0 (s1ce, 0, false) = .ok (s1mid, 0, true) ∧
    step pTest (fun _ => ex0) 0 s1ce = .ok (s1fin, none, 0, true) ∧
    s1fin.sets ≠ s1mid.sets ∧ s1fin.i ≠ s1mid.i := by
  refine ⟨?_, ?_, ?_, ?_⟩
  · with_unfolding_all rfl
  · with_unfolding_all rfl
  · with_unfolding_all decide
  · decide

/-- C1 (amended): a terminating sub-step does not abort the remaining
sub-steps.  What holds instead: the `game_over` flag is latched (once true it
stays true through the remaining sub-steps and is returned), and the state
returned by `step` is always the full `n_repeat_action`-fold iterate of the
loop body — ball motion, obstacle motion, retirement and spawns of the later
sub-steps all still occur after a terminating sub-step. -/
theorem C1_amended_done_latched_all_substeps_run (p : Backend)
    (exts : ℕ → ExtIn) (a : ℤ) :
    (∀ (n k : ℕ) (s : DuetState) (r : ℕ) (s' : DuetState) (r' : ℕ)
       (g' : Bool), stepLoop p exts a k n (s, r, true) = .ok (s', r', g') →
       g' = true) ∧
    (∀ (s s' : DuetState) (ob : Option Obs) (r : ℕ) (g : Bool),
       step p exts a s = .ok (s', ob, r, g) →
       runTicks p (ticksOf exts a 0 s.nRepeatAction) s = .ok s') := by
  constructor
  · exact fun n k s r s' r' g' h => stepLoop_done_latched p exts a n k s r s' r' g' h
  · intro s s' ob r g h
    simp only [step] at h
    cases hl : stepLoop p exts a 0 s.nRepeatAction (s, 0, false) with
    | error e => rw [hl] at h; simp at h
    | ok out =>
      rw [hl] at h
      simp only at h
      cases ho : observe p out.1 with
      | error e => rw [ho] at h; simp at h
      | ok ob1 =>
        rw [ho] at h
        simp only [Except.ok.injEq, Prod.mk.injEq] at h
        obtain ⟨out1, out2, out3⟩ := out
        exact h.1 ▸ stepLoop_state_eq_runTicks p exts a s.nRepeatAction 0
          (s, 0, false) out1 out2 out3 hl

/-- C1 (witness): the amended theorem applied to the concrete collision
scenario `s1ce`. -/
theorem C1_witness :
    step pTest (fun _ => ex0) 0 s1ce = .ok (s1fin, none, 0, true) ∧
    runTicks pTest (ticksOf (fun _ => ex0) 0 0 s1ce.nRepeatAction) s1ce =
      .ok s1fin :=
  ⟨by with_unfolding_all rfl,
   (C1_amended_done_latched_all_substeps_run pTest (fun _ => ex0) 0).2 s1ce
     s1fin none 0 true (by with_unfolding_all rfl)⟩

theorem updReward_of_retire (r : ℕ) : updReward r true false = 1 := by
  simp [updReward]

theorem updReward_one_of_no_collision (retired : Bool) :
    updReward 1 retired false = 1 := by
  cases retired <;> simp [updReward]

theorem stepLoop_reward_stays_one (p : Backend) (exts : ℕ → ExtIn) (a : ℤ) :
    ∀ (n k : ℕ) (s : DuetState) (g : Bool) (s' : DuetState) (r' : ℕ)
      (g' : Bool), noCollRun p exts a k n s = true →
      stepLoop p exts a k n (s, 1, g) = .ok (s', r', g') → r' = 1 := by
  intro n
  induction n with
  | zero =>
    intro k s g s' r' g' _ h
    simp only [stepLoop, Except.ok.injEq, Prod.mk.injEq] at h
    exact h.2.1.symm
  | succ m ih =>
    intro k s g s' r' g' hnc h
    cases hcc : controlOf p (exts k) a s with
    | error e =>
      simp only [stepLoop, subStep, hcc] at h
      exact Except.noConfusion h
    | ok d =>
      simp only [noCollRun, hcc, Bool.and_eq_true, Bool.not_eq_eq_eq_not,
        Bool.not_true] at hnc
      simp only [stepLoop, subStep, hcc] at h
      rw [hnc.1, updReward_one_of_no_collision] at h
      exact ih (k + 1) (tickCore p d s).state (g || false) s' r' g' hnc.2 h

/-- C2 (counterexample): in `s2ce` (frame-skip 2) the oldest obstacle set is
retired on the first sub-step, the second sub-step has no reward-affecting
event (no retirement, no collision), and yet the reward returned by the full
`step` call is `1` — the earlier sub-step's retirement *is* reflected in the
returned scalar, contradicting the claim that only the last sub-step's reward
is reported. -/
theorem C2_counterexample :
    (tickCore pTest 0 s2ce).retired = true ∧
    (tickCore pTest 0 s2mid).retired = false ∧
    (tickCore pTest 0 s2mid).collided = false ∧
    (tickCore pTest 0 s2ce).state = s2mid ∧
    step pTest (fun _ => ex0) 0 s2ce = .ok (s2fin, none, 1, false) := by
  refine ⟨?_, ?_, ?_, ?_, ?_⟩
  · with_unfolding_all decide
  · with_unfolding_all decide
  · with_unfolding_all decide
  · with_unfolding_all decide
  · with_unfolding_all rfl

/-- C2 (amended): the reward variable is carried across the sub-steps of one
`step` call rather than reset per sub-step: a retirement without simultaneous
collision writes `1` into the carried reward, and that value persists through
every later collision-free sub-step into the returned scalar.  The returned
reward is therefore the last *written* value — an intermediate retirement is
reflected in the returned scalar unless a later sub-step's collision
overwrites it with `0`. -/
theorem C2_amended_reward_carried (p : Backend) (exts : ℕ → ExtIn) (a : ℤ) :
    (∀ r : ℕ, updReward r true false = 1) ∧
    (∀ (n k : ℕ) (s : DuetState) (g : Bool) (s' : DuetState) (r' : ℕ)
       (g' : Bool), noCollRun p exts a k n s = true →
       stepLoop p exts a k n (s, 1, g) = .ok (s', r', g') → r' = 1) :=
  ⟨updReward_of_retire,
   fun n k s g s' r' g' hnc h =>
     stepLoop_reward_stays_one p exts a n k s g s' r' g' hnc h⟩

/-- C2 (witness): the amended theorem applied to the concrete retirement
scenario: after the retirement sub-step of `s2ce` the carried reward `1`
survives the remaining collision-free sub-step. -/
theorem C2_witness :
    updReward 5 true false = 1 ∧
    noCollRun pTest (fun _ => ex0) 0 1 1 s2mid = true ∧
    stepLoop pTest (fun _ => ex0) 0 1 1 (s2mid, 1, false) =
      .ok (s2fin, 1, false) ∧ (1 : ℕ) = 1 :=
  ⟨(C2_amended_reward_carried pTest (fun _ => ex0) 0).1 5,
   by with_unfolding_all decide,
   by with_unfolding_all rfl,
   (C2_amended_reward_carried pTest (fun _ => ex0) 0).2 1 1 s2mid false s2fin
     1 false (by with_unfolding_all decide) (by with_unfolding_all rfl)⟩

/-- C4 (confirmed): on every tick, the score increments by exactly `1` iff
the oldest set is retired on that tick and never decreases; the tick's reward
contribution (the value the tick computes from the initial `0` of the `step`
call, which with frame-skip 1 is exactly the returned reward) is `1` iff the
tick retired a set and detected no collision, and is forced to `0` whenever a
collision is detected, which also sets the returned `done`; and the collision
flag is computed from the oldest live set only (`headHit` consults only the
head of the post-retirement/post-spawn sequence). -/
theorem C4_tick_score_reward (p : Backend) (d : ℤ) (s : DuetState) :
    (tickCore p d s).state.score =
      s.score + (if (tickCore p d s).retired then 1 else 0) ∧
    s.score ≤ (tickCore p d s).state.score ∧
    (updReward 0 (tickCore p d s).retired (tickCore p d s).collided = 1 ↔
      ((tickCore p d s).retired = true ∧ (tickCore p d s).collided = false)) ∧
    (∀ r : ℕ, (tickCore p d s).collided = true →
      updReward r (tickCore p d s).retired (tickCore p d s).collided = 0) ∧
    (∀ (r : ℕ) (g : Bool) (ext : ExtIn) (a : ℤ),
      controlOf p ext a s = .ok d →
      subStep p ext a (s, r, g) =
        .ok ((tickCore p d s).state,
          updReward r (tickCore p d s).retired (tickCore p d s).collided,
          g || (tickCore p d s).collided) ∧
      ((tickCore p d s).collided = true → (g || (tickCore p d s).collided) = true)) ∧
    (tickCore p d s).collided =
      headHit (applyControl p d s).blue (applyControl p d s).red
        (tickCore p d s).state.sets := by
  refine ⟨?_, ?_, ?_, ?_, ?_, ?_⟩
  · rw [tickCore_state_score]
    cases (tickCore p d s).retired <;> simp
  · rw [tickCore_state_score]
    cases (tickCore p d s).retired <;> simp
  · cases hr : (tickCore p d s).retired <;>
      cases hc : (tickCore p d s).collided <;> simp [updReward]
  · intro r hc
    rw [hc]
    simp [updReward]
  · intro r g ext a hcc
    refine ⟨?_, ?_⟩
    · simp only [subStep, hcc]
    · intro hc
      rw [hc]
      simp
  · rfl

/-- C4 (witness): the tick theorem applied to the concrete retirement tick of
`s2ce`: the score increments, the tick reward is `1`, and `subStep` agrees. -/
theorem C4_witness :
    (tickCore pTest 0 s2ce).state.score =
      s2ce.score + (if (tickCore pTest 0 s2ce).retired then 1 else 0) ∧
    s2ce.score ≤ (tickCore pTest 0 s2ce).state.score ∧
    subStep pTest ex0 0 (s2ce, 0, false) =
      .ok ((tickCore pTest 0 s2ce).state,
        updReward 0 (tickCore pTest 0 s2ce).retired
          (tickCore pTest 0 s2ce).collided,
        false || (tickCore pTest 0 s2ce).collided) :=
  ⟨(C4_tick_score_reward pTest 0 s2ce).1,
   (C4_tick_score_reward pTest 0 s2ce).2.1,
   ((C4_tick_score_reward pTest 0 s2ce).2.2.2.2.1 0 false ex0 0
     (by with_unfolding_all rfl)).1⟩

theorem phaseInv_applyControl (p : Backend) (d : ℤ) (s : DuetState)
    (h : PhaseInv s) : PhaseInv (applyControl p d s) := by
  obtain ⟨h1, h2, h3⟩ := h
  unfold applyControl
  split_ifs
  · exact ⟨h1, h2, show s.blue.bStep - 1 = s.red.bStep - 1 by omega⟩
  · exact ⟨h1, h2, show s.blue.bStep + 1 = s.red.bStep + 1 by omega⟩
  · exact ⟨h1, h2, h3⟩

theorem phaseInv_tick (p : Backend) (d : ℤ) (s : DuetState)
    (h : PhaseInv s) : PhaseInv (tickCore p d s).state := by
  obtain ⟨hb, hr⟩ := tickCore_state_balls p d s
  have h2 := phaseInv_applyControl p d s h
  exact ⟨hb ▸ h2.1, hr ▸ h2.2.1, by rw [hb, hr]; exact h2.2.2⟩

theorem phaseInv_runTicks (p : Backend) :
    ∀ (l : List (ExtIn × ℤ)) (s s' : DuetState),
      runTicks p l s = .ok s' → PhaseInv s → PhaseInv s' := by
  intro l
  induction l with
  | nil =>
    intro s s' h hs
    simp only [runTicks, Except.ok.injEq] at h
    exact h ▸ hs
  | cons ea rest ih =>
    intro s s' h hs
    obtain ⟨e, a⟩ := ea
    simp only [runTicks] at h
    cases hcc : controlOf p e a s with
    | error err => rw [hcc] at h; exact Except.noConfusion h
    | ok d =>
      rw [hcc] at h
      exact ih (tickCore p d s).state s' h (phaseInv_tick p d s hs)

theorem phaseInv_manInit (p : Backend) (args : ManInitArgs) :
    PhaseInv (manInit p args) :=
  ⟨rfl, rfl, rfl⟩

/-- C5 (confirmed): for every action/input sequence in every control mode,
the two balls stay phase-locked π apart: the blue ball's phase is `π` plus a
whole number of spin steps, the red ball's is `0` plus the *same* number of
spin steps, so their phases differ by exactly π; and every motion update
applies the identical spin increment to both balls, never to one alone. -/
theorem C5_phase_lock (p : Backend) (args : ManInitArgs)
    (inputs : List (ExtIn × ℤ)) (s' : DuetState)
    (h : runTicks p inputs (manInit p args) = .ok s') :
    s'.blue.aPi = 1 ∧ s'.red.aPi = 0 ∧ s'.blue.bStep = s'.red.bStep ∧
    phasesPiApart s'.blue s'.red ∧
    ∀ (d : ℤ) (t : DuetState),
      (applyControl p d t).blue.bStep - t.blue.bStep =
        (applyControl p d t).red.bStep - t.red.bStep := by
  obtain ⟨h1, h2, h3⟩ :=
    phaseInv_runTicks p inputs (manInit p args) s' h (phaseInv_manInit p args)
  refine ⟨h1, h2, h3, ?_, ?_⟩
  · unfold phasesPiApart
    rw [h1, h2, h3]
    push_cast
    ring
  · intro d t
    unfold applyControl Ball.spinLeft Ball.spinRight
    split_ifs <;> simp

/-- C5 (witness): a concrete one-tick spin-left run from the initial state,
with the resulting phases exactly π apart. -/
theorem C5_witness :
    runTicks pTest [(ex0, 1)] (manInit pTest argsTest) = .ok s5w ∧
    phasesPiApart s5w.blue s5w.red :=
  ⟨by with_unfolding_all rfl,
   (C5_phase_lock pTest argsTest [(ex0, 1)] s5w
     (by with_unfolding_all rfl)).2.2.2.1⟩

/-- C7 (counterexample): constructing the environment with the invalid mode
`"bogus"` succeeds — `man_init` stores the mode without validation and the
state is fully initialized (score `0`, counter `1`, one live obstacle set) —
and the `ValueError` is raised only by the first `step` call (inside the ball
movement dispatch), contradicting the claim that an invalid control mode is a
fatal error raised at construction, before the first step. -/
theorem C7_counterexample :
    (manInit pTest argsBogus).mode = "bogus" ∧
    (manInit pTest argsBogus).score = 0 ∧
    (manInit pTest argsBogus).i = 1 ∧
    (manInit pTest argsBogus).sets.length = 1 ∧
    step pTest (fun _ => ex0) 0 (manInit pTest argsBogus) =
      .error "Invalid game mode bogus" := by
  refine ⟨?_, ?_, ?_, ?_, ?_⟩ <;> with_unfolding_all decide

/-- C7 (amended): an invalid control mode is accepted silently at
construction; the fatal `ValueError` surfaces on the first `step` call (with
at least one sub-step configured), raised by the ball-movement mode
dispatch. -/
theorem C7_amended_invalid_mode_errors_on_first_step (p : Backend)
    (exts : ℕ → ExtIn) (a : ℤ) (args : ManInitArgs)
    (hman : args.mode ≠ "man") (hcontr : args.mode ≠ "contr")
    (hai : args.mode ≠ "ai") (hn : 1 ≤ args.nRepeatAction) :
    step p exts a (manInit p args) =
      .error ("Invalid game mode " ++ args.mode) := by
  obtain ⟨n, hnn⟩ : ∃ n, args.nRepeatAction = n + 1 :=
    ⟨args.nRepeatAction - 1, by omega⟩
  have hrep : (manInit p args).nRepeatAction = args.nRepeatAction := rfl
  have hctl : controlOf p (exts 0) a (manInit p args) =
      .error ("Invalid game mode " ++ args.mode) := by
    unfold controlOf
    have hmode : (manInit p args).mode = args.mode := rfl
    rw [hmode, if_neg hman, if_neg hcontr, if_neg hai]
  simp only [step, hrep, hnn, stepLoop, subStep, hctl]

/-- C7 (witness): the amended theorem applied to the concrete configuration
with mode `"bogus"`. -/
theorem C7_witness :
    argsBogus.mode ≠ "man" ∧ argsBogus.mode ≠ "contr" ∧
    argsBogus.mode ≠ "ai" ∧ 1 ≤ argsBogus.nRepeatAction ∧
    step pTest (fun _ => ex0) 0 (manInit pTest argsBogus) =
      .error ("Invalid game mode " ++ argsBogus.mode) :=
  ⟨by decide, by decide, by decide, by decide,
   C7_amended_invalid_mode_errors_on_first_step pTest (fun _ => ex0) 0
     argsBogus (by decide) (by decide) (by decide) (by decide)⟩

theorem coordState_cons (s : DuetState) (o1 : Obstacle)
    (rest : List Obstacle) (tailSets : List (List Obstacle))
    (h : s.sets = (o1 :: rest) :: tailSets) :
    coordState s =
      some ([s.blue.x, s.blue.y, s.red.x, s.red.y] ++
        [o1.top, o1.bottom, o1.left, o1.right] ++ obs2Coords rest) := by
  unfold coordState
  rw [h]

/-- C9 (confirmed): in coordinate mode the observation is the 12-element
vector `[blue.x, blue.y, red.x, red.y, top₁, bottom₁, left₁, right₁, top₂,
bottom₂, left₂, right₂]` built from the two balls and the first two obstacles
of the oldest live set, with `[0, 0, 0, 0]` in the last four slots whenever
that set has only one obstacle. -/
theorem C9_coord_layout (s : DuetState) (o1 : Obstacle)
    (rest : List Obstacle) (tailSets : List (List Obstacle))
    (h : s.sets = (o1 :: rest) :: tailSets) :
    (rest = [] → coordState s =
      some [s.blue.x, s.blue.y, s.red.x, s.red.y,
            o1.top, o1.bottom, o1.left, o1.right, 0, 0, 0, 0]) ∧
    (∀ (o2 : Obstacle) (rest2 : List Obstacle), rest = o2 :: rest2 →
      coordState s =
        some [s.blue.x, s.blue.y, s.red.x, s.red.y,
              o1.top, o1.bottom, o1.left, o1.right,
              o2.top, o2.bottom, o2.left, o2.right]) ∧
    (∀ v : List ℚ, coordState s = some v → v.length = 12) := by
  have hc := coordState_cons s o1 rest tailSets h
  refine ⟨?_, ?_, ?_⟩
  · intro hr
    subst hr
    simpa using hc
  · intro o2 rest2 hr
    subst hr
    simpa using hc
  · intro v hv
    cases rest with
    | nil =>
      rw [hc] at hv
      simp only [Option.some.injEq] at hv
      rw [← hv]
      rfl
    | cons o2 rest2 =>
      rw [hc] at hv
      simp only [Option.some.injEq] at hv
      rw [← hv]
      rfl

/-- C9 (witness): the layout theorem applied to the concrete state `s2ce`,
whose oldest set has a single obstacle, so the last four slots are zero. -/
theorem C9_witness :
    coordState s2ce =
      some [170, 845, 370, 845, 958, 1058, 400, 450, 0, 0, 0, 0] ∧
    ([170, 845, 370, 845, 958, 1058, 400, 450, 0, 0, 0, 0] :
        List ℚ).length = 12 := by
  have h := C9_coord_layout s2ce ⟨400, 450, 958, 100⟩ []
    [[⟨400, 450, 100, 100⟩]] (by with_unfolding_all rfl)
  have h2 : coordState s2ce =
      some [170, 845, 370, 845, 958, 1058, 400, 450, 0, 0, 0, 0] := by
    rw [h.1 rfl]
    with_unfolding_all decide
  exact ⟨h2, h.2.2 _ h2⟩

/-- C8 (confirmed): `reset` reinitializes the full episode state — score `0`,
counter back to `1`, both balls at their fixed starting phases and positions,
all previous obstacle sets discarded with exactly one fresh set spawned
(advancing the global draw cursor in random mode) — and returns the initial
observation of the fresh state, or nothing when capture is disabled. -/
theorem C8_reset_reinitializes (p : Backend) (s : DuetState) :
    (reset p s).1.score = 0 ∧ (reset p s).1.i = 1 ∧
    (reset p s).1.blue = initBlue ∧ (reset p s).1.red = initRed ∧
    (reset p s).1.sets = [(newObstacleSet p s.randomObstacles s.cursor).1] ∧
    (reset p s).1.sets.length = 1 ∧
    (s.randomObstacles = true → (reset p s).1.cursor = s.cursor + 1) ∧
    (s.randomObstacles = false → (reset p s).1.cursor = s.cursor) ∧
    (s.capture = false → (reset p s).2 = .ok none) ∧
    (s.capture = true → s.stateRep = "coord" →
      ∀ (o1 : Obstacle) (rest : List Obstacle),
        (newObstacleSet p s.randomObstacles s.cursor).1 = o1 :: rest →
        (reset p s).2 = .ok (some (Obs.coordObs
          ([initBlue.x, initBlue.y, initRed.x, initRed.y] ++
           [o1.top, o1.bottom, o1.left, o1.right] ++
           obs2Coords rest)))) := by
  refine ⟨rfl, rfl, rfl, rfl, rfl, rfl, ?_, ?_, ?_, ?_⟩
  · intro h
    show (newObstacleSet p s.randomObstacles s.cursor).2 = s.cursor + 1
    simp [newObstacleSet, h]
  · intro h
    show (newObstacleSet p s.randomObstacles s.cursor).2 = s.cursor
    simp [newObstacleSet, h]
  · intro h
    show observe p (reset p s).1 = .ok none
    unfold observe
    rw [show (reset p s).1.capture = s.capture from rfl, h]
    simp
  · intro hcap hrep o1 rest hns
    have hsets : (reset p s).1.sets = (o1 :: rest) :: [] := by
      show [(newObstacleSet p s.randomObstacles s.cursor).1] = _
      rw [hns]
    have hcs := coordState_cons ((reset p s).1) o1 rest [] hsets
    show observe p (reset p s).1 = _
    unfold observe
    rw [show (reset p s).1.capture = s.capture from rfl, hcap,
      show (reset p s).1.stateRep = s.stateRep from rfl, hrep]
    simp only [if_true, if_pos rfl, hcs]
    rfl

/-- C8 (witness): the reset theorem applied to the concrete state `s2ce`
(capture disabled, random obstacles). -/
theorem C8_witness :
    (reset pTest s2ce).1.score = 0 ∧ (reset pTest s2ce).1.i = 1 ∧
    (reset pTest s2ce).1.sets.length = 1 ∧
    (reset pTest s2ce).1.cursor = s2ce.cursor + 1 ∧
    (reset pTest s2ce).2 = .ok none :=
  ⟨(C8_reset_reinitializes pTest s2ce).1,
   (C8_reset_reinitializes pTest s2ce).2.1,
   (C8_reset_reinitializes pTest s2ce).2.2.2.2.2.1,
   (C8_reset_reinitializes pTest s2ce).2.2.2.2.2.2.1 rfl,
   (C8_reset_reinitializes pTest s2ce).2.2.2.2.2.2.2.2.1 rfl⟩

/-- C10 (confirmed): `reset` leaves every configuration field set by
`man_init` unchanged — `state_rep`, `mode`, `capture`, `n_repeat_action`,
`random_obstacles`, `draw_rects` and `visualize` all have the same values
after `reset` as before it; only the per-episode state (score, counter,
balls, obstacle manager) is reinitialized, as established separately for the
reset effect. -/
theorem C10_reset_preserves_config (p : Backend) (s : DuetState) :
    (reset p s).1.mode = s.mode ∧
    (reset p s).1.stateRep = s.stateRep ∧
    (reset p s).1.capture = s.capture ∧
    (reset p s).1.nRepeatAction = s.nRepeatAction ∧
    (reset p s).1.randomObstacles = s.randomObstacles ∧
    (reset p s).1.drawRects = s.drawRects ∧
    (reset p s).1.visualize = s.visualize :=
  ⟨rfl, rfl, rfl, rfl, rfl, rfl, rfl⟩

theorem newObstacleSet_gapF (p : Backend) (g2 : ℕ → List (ℚ × ℚ))
    (rand : Bool) (c : ℕ) (h : p.gapF c = g2 c) :
    newObstacleSet { p with gapF := g2 } rand c = newObstacleSet p rand c := by
  unfold newObstacleSet
  cases rand with
  | false => rfl
  | true =>
    simp only [if_pos rfl]
    rw [h]

theorem controlOf_gapF (p : Backend) (g2 : ℕ → List (ℚ × ℚ)) (ext : ExtIn)
    (a : ℤ) (s : DuetState) :
    controlOf { p with gapF := g2 } ext a s = controlOf p ext a s := rfl

theorem tickCore_gapF (p : Backend) (g2 : ℕ → List (ℚ × ℚ)) (d : ℤ)
    (s : DuetState) (h : p.gapF s.cursor = g2 s.cursor) :
    tickCore { p with gapF := g2 } d s = tickCore p d s := by
  have hns := newObstacleSet_gapF p g2 s.randomObstacles s.cursor h
  have hac : applyControl { p with gapF := g2 } d s = applyControl p d s := rfl
  have hmg : mgrTick { p with gapF := g2 } s.randomObstacles s.i s.cursor
      s.sets = mgrTick p s.randomObstacles s.i s.cursor s.sets := by
    unfold mgrTick
    rw [show ({ p with gapF := g2 } : Backend).speed = p.speed from rfl, hns]
  obtain ⟨_, _, _, _, h5, _, _, _, h9, h10, h11⟩ := applyControl_proj p d s
  simp only [tickCore, hac, h5, h9, h10, h11, hmg]

theorem tickCore_cursor_bounds (p : Backend) (d : ℤ) (s : DuetState) :
    s.cursor ≤ (tickCore p d s).state.cursor ∧
    (tickCore p d s).state.cursor ≤ s.cursor + 1 := by
  obtain ⟨_, hcur, _, _⟩ := tickCore_state_mgr p d s
  rw [hcur]
  unfold mgrTick newObstacleSet
  split_ifs <;> simp

theorem subStep_gapF (p : Backend) (g2 : ℕ → List (ℚ × ℚ)) (ext : ExtIn)
    (a : ℤ) (acc : DuetState × ℕ × Bool)
    (h : p.gapF acc.1.cursor = g2 acc.1.cursor) :
    subStep { p with gapF := g2 } ext a acc = subStep p ext a acc := by
  have ht : ∀ d : ℤ, tickCore { p with gapF := g2 } d acc.1 =
      tickCore p d acc.1 := fun d => tickCore_gapF p g2 d acc.1 h
  unfold subStep
  rw [controlOf_gapF]
  cases hcc : controlOf p ext a acc.1 with
  | error e => rfl
  | ok d => simp only [ht]

theorem stepLoop_cursor_bounds (p : Backend) (exts : ℕ → ExtIn) (a : ℤ) :
    ∀ (n k : ℕ) (acc out : DuetState × ℕ × Bool),
      stepLoop p exts a k n acc = .ok out →
      acc.1.cursor ≤ out.1.cursor ∧ out.1.cursor ≤ acc.1.cursor + n ∧
      out.1.nRepeatAction = acc.1.nRepeatAction := by
  intro n
  induction n with
  | zero =>
    intro k acc out h
    simp only [stepLoop, Except.ok.injEq] at h
    rw [h]
    exact ⟨le_rfl, by omega, rfl⟩
  | succ m ih =>
    intro k acc out h
    simp only [stepLoop] at h
    cases hc : subStep p (exts k) a acc with
    | error e => rw [hc] at h; exact Except.noConfusion h
    | ok acc1 =>
      rw [hc] at h
      have hstep : acc.1.cursor ≤ acc1.1.cursor ∧
          acc1.1.cursor ≤ acc.1.cursor + 1 ∧
          acc1.1.nRepeatAction = acc.1.nRepeatAction := by
        simp only [subStep] at hc
        cases hcc : controlOf p (exts k) a acc.1 with
        | error e => rw [hcc] at hc; exact Except.noConfusion hc
        | ok d =>
          rw [hcc] at hc
          simp only [Except.ok.injEq] at hc
          have hb := tickCore_cursor_bounds p d acc.1
          have hn := (tickCore_state_proj p d acc.1).2.2.2.1
          rw [← hc]
          exact ⟨hb.1, hb.2, hn⟩
      have hi := ih (k + 1) acc1 out h
      exact ⟨le_trans hstep.1 hi.1, by omega, by rw [hi.2.2, hstep.2.2]⟩

theorem stepLoop_gapF (p : Backend) (g2 : ℕ → List (ℚ × ℚ))
    (exts : ℕ → ExtIn) (a : ℤ) :
    ∀ (n k : ℕ) (acc : DuetState × ℕ × Bool),
      (∀ m, acc.1.cursor ≤ m → m < acc.1.cursor + n → p.gapF m = g2 m) →
      stepLoop { p with gapF := g2 } exts a k n acc =
        stepLoop p exts a k n acc := by
  intro n
  induction n with
  | zero => intro k acc _; rfl
  | succ m ih =>
    intro k acc hag
    have hs := subStep_gapF p g2 (exts k) a acc
      (hag acc.1.cursor le_rfl (by omega))
    simp only [stepLoop, hs]
    cases hc : subStep p (exts k) a acc with
    | error e => rfl
    | ok acc1 =>
      apply ih (k + 1) acc1
      intro m' hm1 hm2
      have hstep : acc.1.cursor ≤ acc1.1.cursor ∧
          acc1.1.cursor ≤ acc.1.cursor + 1 := by
        simp only [subStep] at hc
        cases hcc : controlOf p (exts k) a acc.1 with
        | error e => rw [hcc] at hc; exact Except.noConfusion hc
        | ok d =>
          rw [hcc] at hc
          simp only [Except.ok.injEq] at hc
          have hb := tickCore_cursor_bounds p d acc.1
          rw [← hc]
          exact ⟨hb.1, hb.2⟩
      exact hag m' (le_trans hstep.1 hm1) (by omega)

theorem observe_gapF (p : Backend) (g2 : ℕ → List (ℚ × ℚ)) (s : DuetState) :
    observe { p with gapF := g2 } s = observe p s := rfl

theorem step_gapF (p : Backend) (g2 : ℕ → List (ℚ × ℚ)) (exts : ℕ → ExtIn)
    (a : ℤ) (s : DuetState)
    (h : ∀ m, s.cursor ≤ m → m < s.cursor + s.nRepeatAction →
      p.gapF m = g2 m) :
    step { p with gapF := g2 } exts a s = step p exts a s := by
  unfold step
  rw [stepLoop_gapF p g2 exts a s.nRepeatAction 0 (s, 0, false) h]
  simp only [observe_gapF]

theorem step_cursor_bounds (p : Backend) (exts : ℕ → ExtIn) (a : ℤ)
    (s : DuetState) (out : DuetState × Option Obs × ℕ × Bool)
    (h : step p exts a s = .ok out) :
    s.cursor ≤ out.1.cursor ∧ out.1.cursor ≤ s.cursor + s.nRepeatAction ∧
    out.1.nRepeatAction = s.nRepeatAction := by
  simp only [step] at h
  cases hl : stepLoop p exts a 0 s.nRepeatAction (s, 0, false) with
  | error e => rw [hl] at h; exact Except.noConfusion h
  | ok lout =>
    rw [hl] at h
    simp only at h
    cases ho : observe p lout.1 with
    | error e => rw [ho] at h; exact Except.noConfusion h
    | ok ob =>
      rw [ho] at h
      simp only [Except.ok.injEq] at h
      have hb := stepLoop_cursor_bounds p exts a s.nRepeatAction 0
        (s, 0, false) lout hl
      rw [← h]
      exact hb

theorem runSteps_gapF (p : Backend) (g2 : ℕ → List (ℚ × ℚ)) :
    ∀ (calls : List ((ℕ → ExtIn) × ℤ)) (s : DuetState),
      (∀ m, s.cursor ≤ m → m < s.cursor + calls.length * s.nRepeatAction →
        p.gapF m = g2 m) →
      runSteps { p with gapF := g2 } calls s = runSteps p calls s := by
  intro calls
  induction calls with
  | nil => intro s _; rfl
  | cons ea rest ih =>
    intro s hag
    obtain ⟨e, a⟩ := ea
    have hstep := step_gapF p g2 e a s (fun m hm1 hm2 => by
      apply hag m hm1
      have : s.nRepeatAction ≤ (rest.length + 1) * s.nRepeatAction := by
        rw [Nat.succ_mul]
        omega
      simp only [List.length_cons]
      omega)
    simp only [runSteps, hstep]
    cases hc : step p e a s with
    | error e2 => rfl
    | ok out =>
      have hb := step_cursor_bounds p e a s out hc
      have hih := ih out.1 (fun m hm1 hm2 => by
        apply hag m (le_trans hb.1 hm1)
        simp only [List.length_cons]
        rw [Nat.succ_mul]
        rw [hb.2.2] at hm2
        have h2 := hb.2.1
        generalize hP : rest.length * s.nRepeatAction = P at hm2 ⊢
        omega)
      simp only [hih]

theorem manInit_gapF (p : Backend) (g2 : ℕ → List (ℚ × ℚ))
    (args : ManInitArgs) (h : p.gapF 0 = g2 0) :
    manInit { p with gapF := g2 } args = manInit p args := by
  unfold manInit
  rw [newObstacleSet_gapF p g2 args.randomObstacles 0 h]

theorem manInit_cursor_le (p : Backend) (args : ManInitArgs) :
    (manInit p args).cursor ≤ 1 := by
  show (newObstacleSet p args.randomObstacles 0).2 ≤ 1
  unfold newObstacleSet
  split_ifs <;> simp

/-- C3 (counterexample): the environment exposes no seed.  Its entire
configuration surface is the seven parameters of `man_init`
(`state_rep`, `mode`, `capture`, `n_repeat_action`, `random_obstacles`,
`draw_rects`, `visualize`) — no `seed` parameter exists, and the obstacle
manager is constructed from the `random_obstacles` flag alone, drawing gap
placements from the process-global PRNG.  This refutes the claim's assertion
that the randomness of obstacle gap placement is drawn from an explicit,
seedable source exposed by the environment. -/
theorem C3_counterexample :
    ("seed" ∈ manInitParamNames) = False ∧ manInitParamNames.length = 7 := by
  refine ⟨?_, ?_⟩ <;> with_unfolding_all decide

/-- C3 (amended): the simulation itself is deterministic: given the same
configuration, the same backend collaborators, the same action/input
sequence, and the same finite prefix of the global pseudo-random gap stream
(one draw for the initial set plus at most one draw per sub-step), two
independent runs of `man_init` followed by the same `step` calls produce
identical states, observations, rewards and termination flags.
Reproducibility therefore requires seeding the process-global PRNG
externally — the environment exposes no seed of its own. -/
theorem C3_amended_gap_stream_determinism (p : Backend)
    (g2 : ℕ → List (ℚ × ℚ)) (args : ManInitArgs)
    (calls : List ((ℕ → ExtIn) × ℤ))
    (hagree : ∀ m, m < 1 + calls.length * args.nRepeatAction →
      p.gapF m = g2 m) :
    runSteps { p with gapF := g2 } calls (manInit { p with gapF := g2 } args)
      = runSteps p calls (manInit p args) := by
  have h0 : p.gapF 0 = g2 0 := hagree 0 (by omega)
  rw [manInit_gapF p g2 args h0]
  apply runSteps_gapF
  intro m hm1 hm2
  apply hagree
  have hc := manInit_cursor_le p args
  have hn : (manInit p args).nRepeatAction = args.nRepeatAction := rfl
  rw [hn] at hm2
  generalize hP : calls.length * args.nRepeatAction = P at hm2 ⊢
  omega

/-- C3 (witness): the determinism theorem applied to two concrete backends
whose gap streams agree on the first two draws: one concrete `step` call
after `man_init` yields identical results. -/
theorem C3_witness :
    pTest.gapF 0 = g2Test 0 ∧ pTest.gapF 1 = g2Test 1 ∧
    runSteps { pTest with gapF := g2Test } [(fun _ => ex0, 0)]
        (manInit { pTest with gapF := g2Test } argsTest) =
      runSteps pTest [(fun _ => ex0, 0)] (manInit pTest argsTest) :=
  ⟨by with_unfolding_all decide, by with_unfolding_all decide,
   C3_amended_gap_stream_determinism pTest g2Test argsTest [(fun _ => ex0, 0)]
     (fun m hm => by
       have hm3 : m < 3 := by
         have hrep : argsTest.nRepeatAction = 1 := rfl
         simp only [List.length_cons, List.length_nil, hrep] at hm
         omega
       show pTest.gapF m = g2Test m
       unfold pTest g2Test
       rw [if_pos hm3])⟩

theorem ageTop_succ (p : Backend) (a : ℕ) :
    ageTop p (a + 1) = ageTop p a + p.speed := by
  unfold ageTop
  push_cast
  ring

theorem ageTop_mono (p : Backend) (hsp : 0 ≤ p.speed) {a b : ℕ} (h : a ≤ b) :
    ageTop p a ≤ ageTop p b := by
  unfold ageTop
  have hab : (a : ℚ) ≤ (b : ℚ) := by exact_mod_cast h
  have := mul_le_mul_of_nonneg_right hab hsp
  linarith

theorem ageTop_zero (p : Backend) : ageTop p 0 = p.spawnTop := by
  unfold ageTop
  push_cast
  ring

theorem ageTop_140 (p : Backend) :
    ageTop p 140 = p.spawnTop + 140 * p.speed := by
  unfold ageTop
  push_cast
  ring

theorem setAt_move (p : Backend) (a : ℕ) (st : List Obstacle)
    (h : SetAt p a st) :
    SetAt p (a + 1) (st.map (Obstacle.move p.speed)) := by
  obtain ⟨hne, htop⟩ := h
  constructor
  · simp [hne]
  · intro o ho
    simp only [List.mem_map] at ho
    obtain ⟨o2, ho2, rfl⟩ := ho
    show o2.top + p.speed = ageTop p (a + 1)
    rw [htop o2 ho2, ageTop_succ]

theorem setAt_new (p : Backend) (hgap : ∀ n, p.gapF n ≠ [])
    (hfix : p.fixedGap ≠ []) (rand : Bool) (c : ℕ) :
    SetAt p 0 (newObstacleSet p rand c).1 := by
  constructor
  · unfold newObstacleSet
    cases rand <;> simp [hgap c, hfix]
  · intro o ho
    unfold newObstacleSet at ho
    simp only [List.mem_map] at ho
    obtain ⟨sp, _, rfl⟩ := ho
    show p.spawnTop = ageTop p 0
    rw [ageTop_zero]

theorem oldestOutOfFrame_uniform (p : Backend) (a : ℕ) (st : List Obstacle)
    (rest : List (List Obstacle)) (h : SetAt p a st) :
    oldestOutOfFrame (st :: rest) = decide (BOARD_HEIGHT < ageTop p a) := by
  obtain ⟨hne, htop⟩ := h
  show st.all _ = _
  cases hd : decide (BOARD_HEIGHT < ageTop p a) with
  | true =>
    simp only [decide_eq_true_eq] at hd
    apply List.all_eq_true.mpr
    intro o ho
    rw [htop o ho]
    exact decide_eq_true hd
  | false =>
    simp only [decide_eq_false_iff_not] at hd
    cases st with
    | nil => exact absurd rfl hne
    | cons o st2 =>
      have ho : o.top = ageTop p a := htop o (by simp)
      simp only [List.all_cons, ho, Bool.and_eq_false_iff]
      left
      exact decide_eq_false hd

theorem yOf_next (i : ℕ) (hi : i < 140) : yOf ((i + 1) % 140) = i := by
  unfold yOf
  omega

theorem yOf_pos (i : ℕ) (h1 : 1 ≤ i) (h2 : i < 140) : yOf i = i - 1 := by
  unfold yOf
  omega

theorem yOf_zero : yOf 0 = 139 := by
  unfold yOf
  omega

theorem range_reverse_succ (m : ℕ) :
    (List.range (m + 1)).reverse = m :: (List.range m).reverse := by
  rw [List.range_succ, List.reverse_append]
  simp

theorem range_reverse_succ_map (m : ℕ) :
    (List.range (m + 1)).reverse =
      ((List.range m).reverse.map (· + 1)) ++ [0] := by
  rw [List.range_succ_eq_map]
  simp [List.reverse_cons, ← List.map_reverse, Nat.succ_eq_add_one]

theorem forall₂_setAt_congr (p : Backend) {l : List (List Obstacle)}
    {idx : List ℕ} (f g : ℕ → ℕ) (hfg : ∀ j, f j = g j)
    (h : List.Forall₂ (fun st j => SetAt p (f j) st) l idx) :
    List.Forall₂ (fun st j => SetAt p (g j) st) l idx :=
  h.imp fun st j hst => by rwa [hfg j] at hst

theorem mgrInv_step (p : Backend) (hsp : 0 ≤ p.speed)
    (hbound : p.spawnTop + 140 * p.speed ≤ BOARD_HEIGHT)
    (hgap : ∀ n, p.gapF n ≠ []) (hfix : p.fixedGap ≠ [])
    (rand : Bool) (i c : ℕ) (sets : List (List Obstacle)) (hi : i < 140)
    (m : ℕ)
    (hfa : List.Forall₂ (fun st j => SetAt p (yOf i + 140 * j) st) sets
      ((List.range (m + 1)).reverse))
    (hhead : ageTop p (yOf i + 140 * m) ≤ BOARD_HEIGHT) :
    ∃ k' : ℕ, 1 ≤ k' ∧
      List.Forall₂ (fun st j => SetAt p (yOf ((i + 1) % 140) + 140 * j) st)
        (mgrTick p rand i c sets).1 ((List.range k').reverse) ∧
      ageTop p (yOf ((i + 1) % 140) + 140 * (k' - 1)) ≤ BOARD_HEIGHT := by
  have hy' : yOf ((i + 1) % 140) = i := yOf_next i hi
  rw [range_reverse_succ] at hfa
  cases hfa with
  | cons h0 hrest =>
  rename_i st0 rest0
  have h0m : SetAt p (yOf i + 140 * m + 1)
      (st0.map (Obstacle.move p.speed)) := setAt_move p _ st0 h0
  have hrestm : List.Forall₂ (fun st j => SetAt p (yOf i + 140 * j + 1) st)
      (rest0.map (List.map (Obstacle.move p.speed)))
      ((List.range m).reverse) := by
    rw [List.forall₂_map_left_iff]
    exact hrest.imp fun st j hst => setAt_move p _ st hst
  have hoof : oldestOutOfFrame
      (st0.map (Obstacle.move p.speed) ::
        rest0.map (List.map (Obstacle.move p.speed))) =
      decide (BOARD_HEIGHT < ageTop p (yOf i + 140 * m + 1)) :=
    oldestOutOfFrame_uniform p _ _ _ h0m
  by_cases hspawn : i % 140 = 0
  · -- spawn tick: i = 0
    have hi0 : i = 0 := by omega
    subst hi0
    have hns := setAt_new p hgap hfix rand c
    have hns0 : SetAt p (yOf (1 % 140) + 140 * 0) (newObstacleSet p rand c).1 := by
      have hidx : yOf (1 % 140) + 140 * 0 = 0 := by
        rw [show (0 + 1) % 140 = 1 % 140 from rfl] at hy'
        omega
      rwa [hidx]
    have hmoved : List.Forall₂
        (fun st j => SetAt p (yOf 0 + 140 * j + 1) st)
        (st0.map (Obstacle.move p.speed) ::
          rest0.map (List.map (Obstacle.move p.speed)))
        ((List.range (m + 1)).reverse) := by
      rw [range_reverse_succ]
      exact List.Forall₂.cons h0m hrestm
    by_cases hret : BOARD_HEIGHT < ageTop p (yOf 0 + 140 * m + 1)
    · -- retirement on the spawn tick
      refine ⟨m + 1, by omega, ?_, ?_⟩
      · have hm1 : (mgrTick p rand 0 c (st0 :: rest0)).1 =
            (rest0.map (List.map (Obstacle.move p.speed))) ++
              [(newObstacleSet p rand c).1] := by
          simp [mgrTick, hoof, decide_eq_true hret, hspawn]
        rw [hm1, range_reverse_succ_map]
        refine List.rel_append ?_ ?_
        · rw [List.forall₂_map_right_iff]
          refine hrestm.imp fun st j hst => ?_
          have hidx : yOf 0 + 140 * j + 1 = yOf ((0 + 1) % 140) + 140 * (j + 1) := by
            rw [yOf_zero, hy']
            omega
          rwa [hidx] at hst
        · exact List.Forall₂.cons hns0 List.Forall₂.nil
      · have hidx : yOf ((0 + 1) % 140) + 140 * (m + 1 - 1) = 140 * m := by
          rw [hy']
          omega
        rw [hidx]
        refine le_trans (ageTop_mono p hsp ?_) hhead
        rw [yOf_zero]
        omega
    · -- no retirement on the spawn tick
      refine ⟨m + 2, by omega, ?_, ?_⟩
      · have hm1 : (mgrTick p rand 0 c (st0 :: rest0)).1 =
            ((st0 :: rest0).map (List.map (Obstacle.move p.speed))) ++
              [(newObstacleSet p rand c).1] := by
          simp [mgrTick, hoof, decide_eq_false hret, hspawn]
        rw [hm1, show m + 2 = (m + 1) + 1 from rfl, range_reverse_succ_map]
        refine List.rel_append ?_ ?_
        · rw [List.forall₂_map_right_iff]
          refine hmoved.imp fun st j hst => ?_
          have hidx : yOf 0 + 140 * j + 1 = yOf ((0 + 1) % 140) + 140 * (j + 1) := by
            rw [yOf_zero, hy']
            omega
          rwa [hidx] at hst
        · exact List.Forall₂.cons hns0 List.Forall₂.nil
      · have hidx : yOf ((0 + 1) % 140) + 140 * (m + 2 - 1) =
            yOf 0 + 140 * m + 1 := by
          rw [hy', yOf_zero]
          omega
        rw [hidx]
        exact le_of_not_lt hret
  · -- non-spawn tick: 1 ≤ i
    have hi1 : 1 ≤ i := by omega
    have hy : yOf i = i - 1 := yOf_pos i hi1 hi
    have hidx : ∀ j, yOf i + 140 * j + 1 = yOf ((i + 1) % 140) + 140 * j := by
      intro j
      rw [hy, hy']
      omega
    by_cases hret : BOARD_HEIGHT < ageTop p (yOf i + 140 * m + 1)
    · -- retirement: the manager must hold at least two sets
      have hm1le : 1 ≤ m := by
        by_contra hm0
        have hmz : m = 0 := by omega
        subst hmz
        have hidx0 : yOf i + 140 * 0 + 1 = i := by
          rw [hy]
          omega
        rw [hidx0] at hret
        have h1 : ageTop p i ≤ ageTop p 140 := ageTop_mono p hsp (by omega)
        rw [ageTop_140] at h1
        linarith
      refine ⟨m, hm1le, ?_, ?_⟩
      · have hm1 : (mgrTick p rand i c (st0 :: rest0)).1 =
            rest0.map (List.map (Obstacle.move p.speed)) := by
          have hnot : ¬(i % NEW_OBS_INTERVAL = 0) := by
            simp only [NEW_OBS_INTERVAL]
            exact hspawn
          simp [mgrTick, hoof, decide_eq_true hret, hnot]
        rw [hm1]
        exact forall₂_setAt_congr p _ _ (fun j => hidx j) hrestm
      · refine le_trans (ageTop_mono p hsp ?_) hhead
        rw [hy, hy']
        omega
    · -- no retirement
      refine ⟨m + 1, by omega, ?_, ?_⟩
      · have hm1 : (mgrTick p rand i c (st0 :: rest0)).1 =
            st0.map (Obstacle.move p.speed) ::
              rest0.map (List.map (Obstacle.move p.speed)) := by
          have hnot : ¬(i % NEW_OBS_INTERVAL = 0) := by
            simp only [NEW_OBS_INTERVAL]
            exact hspawn
          simp [mgrTick, hoof, decide_eq_false hret, hnot]
        rw [hm1, range_reverse_succ]
        refine List.Forall₂.cons ?_ ?_
        · rw [← hidx m]
          exact h0m
        · exact forall₂_setAt_congr p _ _ (fun j => hidx j) hrestm
      · have hidx2 : yOf ((i + 1) % 140) + 140 * (m + 1 - 1) =
            yOf i + 140 * m + 1 := by
          rw [hy, hy']
          omega
        rw [hidx2]
        exact le_of_not_lt hret

theorem mgrInv_nonempty (p : Backend) (s : DuetState) (h : MgrInv p s) :
    s.sets ≠ [] := by
  obtain ⟨_, k, hk, hfa, _⟩ := h
  intro hnil
  rw [hnil] at hfa
  rw [List.forall₂_nil_left_iff] at hfa
  have : ((List.range k).reverse).length = 0 := by rw [hfa]; rfl
  simp at this
  omega

theorem mgrInv_tick (p : Backend) (hsp : 0 ≤ p.speed)
    (hbound : p.spawnTop + 140 * p.speed ≤ BOARD_HEIGHT)
    (hgap : ∀ n, p.gapF n ≠ []) (hfix : p.fixedGap ≠ []) (d : ℤ)
    (s : DuetState) (h : MgrInv p s) : MgrInv p (tickCore p d s).state := by
  obtain ⟨hi, k, hk, hfa, hhead⟩ := h
  obtain ⟨hsets, _, hic, _⟩ := tickCore_state_mgr p d s
  obtain ⟨m, rfl⟩ : ∃ m, k = m + 1 := ⟨k - 1, by omega⟩
  have hh : ageTop p (yOf s.i + 140 * m) ≤ BOARD_HEIGHT := by
    have hmm : m + 1 - 1 = m := by omega
    rwa [hmm] at hhead
  obtain ⟨k', hk', hfa', hhead'⟩ := mgrInv_step p hsp hbound hgap hfix
    s.randomObstacles s.i s.cursor s.sets hi m hfa hh
  have h140 : (tickCore p d s).state.i = (s.i + 1) % 140 := hic
  constructor
  · rw [h140]
    omega
  · refine ⟨k', hk', ?_, ?_⟩
    · rw [h140, hsets]
      exact hfa'
    · rw [h140]
      exact hhead'

theorem mgrInv_manInit (p : Backend) (hsp : 0 ≤ p.speed)
    (hbound : p.spawnTop + 140 * p.speed ≤ BOARD_HEIGHT)
    (hgap : ∀ n, p.gapF n ≠ []) (hfix : p.fixedGap ≠ [])
    (args : ManInitArgs) : MgrInv p (manInit p args) := by
  have hidx : yOf (manInit p args).i + 140 * 0 = 0 := by
    show yOf 1 + 140 * 0 = 0
    unfold yOf
    omega
  constructor
  · show 1 < 140
    omega
  · refine ⟨1, le_rfl, ?_, ?_⟩
    · show List.Forall₂ _ [(newObstacleSet p args.randomObstacles 0).1]
        ((List.range 1).reverse)
      rw [show (List.range 1).reverse = [0] from rfl]
      refine List.Forall₂.cons ?_ List.Forall₂.nil
      rw [hidx]
      exact setAt_new p hgap hfix args.randomObstacles 0
    · rw [show (1 : ℕ) - 1 = 0 from rfl, hidx, ageTop_zero]
      have h140 : (0 : ℚ) ≤ 140 * p.speed := by positivity
      linarith

theorem mgrInv_runTicks (p : Backend) (hsp : 0 ≤ p.speed)
    (hbound : p.spawnTop + 140 * p.speed ≤ BOARD_HEIGHT)
    (hgap : ∀ n, p.gapF n ≠ []) (hfix : p.fixedGap ≠ []) :
    ∀ (l : List (ExtIn × ℤ)) (s s' : DuetState),
      runTicks p l s = .ok s' → MgrInv p s → MgrInv p s' := by
  intro l
  induction l with
  | nil =>
    intro s s' h hs
    simp only [runTicks, Except.ok.injEq] at h
    exact h ▸ hs
  | cons ea rest ih =>
    intro s s' h hs
    obtain ⟨e, a⟩ := ea
    simp only [runTicks] at h
    cases hcc : controlOf p e a s with
    | error err => rw [hcc] at h; exact Except.noConfusion h
    | ok d =>
      rw [hcc] at h
      exact ih (tickCore p d s).state s' h
        (mgrInv_tick p hsp hbound hgap hfix d s hs)

/-- C6 (confirmed): the step engine never queries the oldest obstacle set of
an empty manager.  Under the spec's obstacle geometry — nonempty spawned
sets, a nonnegative fall step, and a set spawned at the top taking at least
one full spawn interval to scroll fully past the bottom boundary
(`spawnTop + 140·speed ≤ BOARD_HEIGHT`) — every state reachable from
`man_init` by any sequence of sub-steps has at least one live obstacle set,
and after one further sub-step (whose collision check consults exactly the
post-retirement/post-spawn sequence stored in the resulting state) the
sequence is again nonempty; so the collision-check point of every sub-step
sees at least one live set. -/
theorem C6_collision_check_never_empty (p : Backend) (args : ManInitArgs)
    (hsp : 0 ≤ p.speed)
    (hbound : p.spawnTop + 140 * p.speed ≤ BOARD_HEIGHT)
    (hgap : ∀ n, p.gapF n ≠ []) (hfix : p.fixedGap ≠ [])
    (inputs : List (ExtIn × ℤ)) (s' : DuetState)
    (h : runTicks p inputs (manInit p args) = .ok s') :
    s'.sets ≠ [] ∧ ∀ d : ℤ, (tickCore p d s').state.sets ≠ [] := by
  have hinv := mgrInv_runTicks p hsp hbound hgap hfix inputs
    (manInit p args) s' h (mgrInv_manInit p hsp hbound hgap hfix args)
  exact ⟨mgrInv_nonempty p s' hinv,
    fun d => mgrInv_nonempty p _ (mgrInv_tick p hsp hbound hgap hfix d s' hinv)⟩

/-- C6 (witness): the invariant applied to a concrete one-tick run. -/
theorem C6_witness :
    runTicks pTest [(ex0, 0)] (manInit pTest argsTest) = .ok s6w ∧
    s6w.sets ≠ [] :=
  ⟨by with_unfolding_all rfl,
   (C6_collision_check_never_empty pTest argsTest
     (by with_unfolding_all decide) (by with_unfolding_all decide)
     (fun _ => by simp [pTest]) (by with_unfolding_all decide)
     [(ex0, 0)] s6w (by with_unfolding_all rfl)).1⟩

end Duet
